import Mathlib

/-!
# Verification of the agenticai scraping pipeline core

Shallow embedding of the repository's two source modules:

* `src/app/api/scrape/route.ts` — the `ScrapingOrchestrator` class
  (`updateProgress`, `runPythonScript`, `runWorkflow`) and the `POST`
  entry point (validation, output-folder creation, session allocation,
  fire-and-forget workflow launch with an error backstop).
* the progress route (shipped in the repository's unnamed sources) —
  the in-memory `progressStreams` map with its `GET` subscription
  endpoint and the `sendProgressUpdate` publish helper.

The orchestrator is modelled as a state-passing interpreter over the exact
stage sequence of `runWorkflow`; external python scripts are opaque and
modelled by a `ProcBehavior` environment (one behavior per spawn, indexed
by spawn order).  Event delivery is modelled under the assumption that a
subscriber is registered for the whole run and every enqueue succeeds:
`sessionEvents` is then exactly the sequence that subscriber observes
(the initial synthetic "Connected" event, the orchestrator's events in
publish order, and — on a failed run — the `POST` catch-handler's backstop
error event, which is published before the hub's 1s deferred close and is
therefore delivered).
-/

/-- Progress status, from the `ScrapingProgress` / `ProgressUpdate`
interfaces: `"running" | "completed" | "error"`. -/
inductive Status where
  | running
  | completed
  | error
deriving DecidableEq

/-- One progress event, from the `ScrapingProgress` interface:
`{ step, total, message, status, details? }`. -/
structure ProgressEvent where
  step : Nat
  total : Nat
  message : String
  status : Status
  details : Option String
deriving DecidableEq

/-- `isTerminalStatus s` is true for `completed` and `error`. -/
def isTerminalStatus : Status → Bool
  | Status.running => false
  | Status.completed => true
  | Status.error => true

/-- An event is terminal when its status is `completed` or `error`. -/
def isTerminalEvent (e : ProgressEvent) : Bool :=
  isTerminalStatus e.status

/-- The observable behavior of one spawned external process:
either it spawns and exits with a code after streaming some stdout
chunks (the `close` handler), or the spawn itself fails (the `error`
handler; no stdout is produced). -/
inductive ProcBehavior where
  | exited (code : Int) (stdoutChunks : List String) (stderr : String)
  | spawnFailed (msg : String)
deriving DecidableEq

/-- `this.totalSteps = 6` in `ScrapingOrchestrator`. -/
def totalSteps : Nat := 6

/-- Message of the rejection on a nonzero exit code:
"Script X failed with code C. Error: stderr". -/
def failMsg (script : String) (code : Int) (stderr : String) : String :=
  "Script " ++ script ++ " failed with code " ++ toString code ++ ". Error: " ++ stderr

/-- Message of the rejection when the process cannot be spawned:
"Failed to start script X: msg". -/
def spawnMsg (script : String) (m : String) : String :=
  "Failed to start script " ++ script ++ ": " ++ m

/-- The per-chunk streaming events emitted from the stdout `data`
handler: `updateProgress("Running X...", "running", output.trim())`
at the orchestrator's current step. -/
def streamEvents (script : String) (step : Nat) (chunks : List String) : List ProgressEvent :=
  chunks.map fun out =>
    { step := step, total := totalSteps,
      message := "Running " ++ script ++ "...", status := Status.running,
      details := some out.trim }

/-- `runPythonScript(scriptName, args)` from `ScrapingOrchestrator`,
given the behavior of the one process it spawns.  Returns the events it
emits through `updateProgress` while streaming, the promise outcome
(`resolve(stdout)` on exit code 0, `reject` with `failMsg` on a nonzero
exit, `reject` with `spawnMsg` when the spawn fails), and the number of
spawn calls it performed (the source spawns exactly once — no retry). -/
def runPythonScript (script : String) (b : ProcBehavior) (step : Nat) :
    List ProgressEvent × Except String String × Nat :=
  match b with
  | ProcBehavior.exited code chunks stderr =>
      (streamEvents script step chunks,
       if code = 0 then Except.ok (String.join chunks)
       else Except.error (failMsg script code stderr),
       1)
  | ProcBehavior.spawnFailed m =>
      ([], Except.error (spawnMsg script m), 1)

/-- The request body: `{ scrapeSite, productName, outputFolder, recipientEmail }`. -/
structure ScrapingRequest where
  scrapeSite : String
  productName : String
  outputFolder : String
  recipientEmail : String
deriving DecidableEq

/-- Model of JavaScript `String.prototype.toLowerCase` (character-wise
lowercasing; the source only compares against ASCII literals). -/
def lowerStr (s : String) : String :=
  ⟨s.data.map Char.toLower⟩

/-- One external-task invocation recorded with the stage index at which
it was made (bookkeeping used to state the claims about which stages
invoke which scripts). -/
structure Invocation where
  step : Nat
  script : String
  args : List String
deriving DecidableEq

/-- Orchestrator state: `this.currentStep`, plus the trace of events it
has sent (`sendProgressUpdate` calls) and external invocations it has
made, and the count of spawns so far (indexing into the behavior
environment). -/
structure WfState where
  currentStep : Nat
  events : List ProgressEvent
  invocations : List Invocation
  invIdx : Nat
deriving DecidableEq

/-- `this.updateProgress(message, status, details)`: publishes one event
at the current step with the fixed total. -/
def updateProgress (st : WfState) (msg : String) (status : Status)
    (details : Option String) : WfState :=
  { st with events := st.events ++
      [{ step := st.currentStep, total := totalSteps, message := msg,
         status := status, details := details }] }

/-- Behavior environment: the outcome of the n-th spawn of the run. -/
def Env : Type := Nat → ProcBehavior

/-- `await this.runPythonScript(script, args)` at the current step:
streams events, records the invocation, and propagates the outcome. -/
def invokeScript (env : Env) (st : WfState) (script : String) (args : List String) :
    WfState × Except String Unit :=
  let r := runPythonScript script (env st.invIdx) st.currentStep
  ({ st with
      events := st.events ++ r.1,
      invocations := st.invocations ++ [{ step := st.currentStep, script := script, args := args }],
      invIdx := st.invIdx + 1 },
   r.2.1.map fun _ => ())

/-- One source statement inside a stage of `runWorkflow`: either an
`updateProgress(msg, "running")` call or an awaited script invocation. -/
inductive StageAction where
  | announce (msg : String)
  | runScript (script : String) (args : List String)
deriving DecidableEq

/-- A stage of `runWorkflow`: the `this.currentStep = i` assignment
followed by its statements. -/
structure StagePlan where
  index : Nat
  actions : List StageAction
deriving DecidableEq

/-- Run the statements of one stage in order; a rejected `await`
aborts the rest (control jumps to the `catch`). -/
def execActions (env : Env) : WfState → List StageAction → WfState × Except String Unit
  | st, [] => (st, Except.ok ())
  | st, StageAction.announce m :: rest =>
      execActions env (updateProgress st m Status.running none) rest
  | st, StageAction.runScript s args :: rest =>
      match invokeScript env st s args with
      | (st', Except.ok _) => execActions env st' rest
      | (st', Except.error e) => (st', Except.error e)

/-- Run the stages in order; a failing stage aborts the remaining ones. -/
def execStages (env : Env) : WfState → List StagePlan → WfState × Except String Unit
  | st, [] => (st, Except.ok ())
  | st, sp :: rest =>
      match execActions env { st with currentStep := sp.index } sp.actions with
      | (st', Except.ok _) => execStages env st' rest
      | (st', Except.error e) => (st', Except.error e)

/-- The single annotated event of the fused blinkit branch at step 2. -/
def blinkitAnnounce : String :=
  "Blinkit: Product analysis and image scraping completed (steps 1 & 2)"

/-- The stage sequence of `runWorkflow`, line for line from the source.
Stage 1 branches on `(params.scrapeSite || "").toLowerCase()`: blinkit
runs `blinkit.py` (which also downloads images), anything else runs the
Amazon `product_analyzer.py` with the raw site string as first argument.
Stage 2 on the blinkit branch performs no invocation — only the fused
announcement.  Stages 3–6 are branch-independent. -/
def stagePlans (p : ScrapingRequest) : List StagePlan :=
  let site := lowerStr p.scrapeSite
  [ { index := 1,
      actions := [StageAction.announce "Starting product analysis and scraping...",
        if site = "blinkit" then
          StageAction.runScript "blinkit.py"
            ["--brand", p.productName, "--out-dir", p.outputFolder, "--images"]
        else
          StageAction.runScript "product_analyzer.py"
            [p.scrapeSite, p.productName, p.outputFolder]] },
    { index := 2,
      actions :=
        if site = "blinkit" then
          [StageAction.announce blinkitAnnounce]
        else
          [StageAction.announce "Scraping product images...",
           StageAction.runScript "image_scraper.py" [p.outputFolder]] },
    { index := 3,
      actions := [StageAction.announce "Extracting text from images using AI...",
        StageAction.runScript "text_extractor.py" [p.outputFolder]] },
    { index := 4,
      actions := [StageAction.announce "Detecting QR codes and barcodes...",
        StageAction.runScript "qr_orchestrator.py" [p.outputFolder]] },
    { index := 5,
      actions := [StageAction.announce "Merging data and checking credentials...",
        StageAction.runScript "credential_check.py" [p.outputFolder]] },
    { index := 6,
      actions := [StageAction.announce "Sending email report...",
        StageAction.runScript "exception_reporter.py" [p.outputFolder, p.recipientEmail]] } ]

/-- The initial orchestrator state of a run (`currentStep = 0`, nothing
emitted or invoked yet). -/
def initState : WfState :=
  { currentStep := 0, events := [], invocations := [], invIdx := 0 }

/-- `runWorkflow(params)`: runs the stages; on success emits the single
`completed` event, in the `catch` emits one `error` event with
"Error: " ++ message at the current step and rethrows. -/
def runWorkflow (p : ScrapingRequest) (env : Env) : WfState × Except String Unit :=
  match execStages env initState (stagePlans p) with
  | (st, Except.ok _) =>
      (updateProgress st "All tasks completed successfully!" Status.completed none,
       Except.ok ())
  | (st, Except.error e) =>
      (updateProgress st ("Error: " ++ e) Status.error none, Except.error e)

/-- The synthetic first event enqueued by the progress route on
connection. -/
def connectedEvent : ProgressEvent :=
  { step := 0, total := 6, message := "Connected to progress stream",
    status := Status.running, details := none }

/-- The backstop event sent by `POST`'s `.catch` handler when the
workflow promise rejects: step 0, total 6, status error. -/
def backstopEvent (e : String) : ProgressEvent :=
  { step := 0, total := 6, message := "Workflow failed: " ++ e,
    status := Status.error, details := none }

/-- The full event sequence a subscriber observes for one session,
assuming it is connected for the whole run and every delivery succeeds:
the synthetic connection event, the orchestrator's events in publish
order, and — when the workflow promise rejects — the entry point's
backstop error event (delivered because the hub only closes the sink
1000 ms after the first terminal event, while the backstop publish
happens immediately on rejection). -/
def sessionEvents (p : ScrapingRequest) (env : Env) : List ProgressEvent :=
  let r := runWorkflow p env
  connectedEvent :: r.1.events ++
    (match r.2 with
     | Except.ok _ => []
     | Except.error e => [backstopEvent e])

/-! ## Event Hub (the progress route's `progressStreams` map) -/

/-- `Map.get` on the `progressStreams` map (subscribers identified by an
abstract controller id). -/
def mapGet : List (String × Nat) → String → Option Nat
  | [], _ => none
  | (k', v) :: rest, k => if k' = k then some v else mapGet rest k

/-- `Map.set`: replaces the value of an existing key in place, otherwise
appends a new entry. -/
def mapSet : List (String × Nat) → String → Nat → List (String × Nat)
  | [], k, v => [(k, v)]
  | (k', v') :: rest, k, v =>
      if k' = k then (k, v) :: rest else (k', v') :: mapSet rest k v

/-- `Map.delete`: removes the entry of the key, if present. -/
def mapDelete : List (String × Nat) → String → List (String × Nat)
  | [], _ => []
  | (k', v') :: rest, k => if k' = k then rest else (k', v') :: mapDelete rest k

/-- The progress route's `GET` handler: rejects with 400 when the
`sessionId` query parameter is missing/empty, otherwise registers the
new stream controller for the session with `progressStreams.set` and
enqueues the synthetic connection event on it.  Returns the new map,
the event enqueued on the new controller, and whether a 400 error was
returned. -/
def GETprogress (streams : List (String × Nat)) (sessionId : String)
    (newController : Nat) : List (String × Nat) × Option ProgressEvent × Bool :=
  if sessionId.data.isEmpty then
    (streams, none, true)
  else
    (mapSet streams sessionId newController, some connectedEvent, false)

/-- True when the registered controller for the session (if any) would
fail delivery (its `enqueue` throws, e.g. the stream is already
closed). -/
def undeliverable (streams : List (String × Nat)) (sid : String)
    (deliveryOk : Nat → Bool) : Bool :=
  match mapGet streams sid with
  | none => true
  | some c => !deliveryOk c

/-- `sendProgressUpdate(sessionId, update)`: looks the session up in the
map; if absent, does nothing.  If present, tries to enqueue the update:
on success, when the update is terminal, it schedules (via `setTimeout`,
1000 ms) closing the stream and deleting the entry — the map itself is
unchanged now; on an enqueue exception it drops the event and deletes
the entry immediately.  Returns the new map, the deliveries performed,
and whether a deferred close was scheduled.  The function is total: a
delivery failure is swallowed and never propagates to the caller (the
orchestrator). -/
def sendProgressUpdate (streams : List (String × Nat)) (sessionId : String)
    (update : ProgressEvent) (deliveryOk : Nat → Bool) :
    List (String × Nat) × List (Nat × ProgressEvent) × Bool :=
  match mapGet streams sessionId with
  | none => (streams, [], false)
  | some c =>
      if deliveryOk c then
        (streams, [(c, update)], isTerminalStatus update.status)
      else
        (mapDelete streams sessionId, [], false)

/-! ## Session Entry Point (`POST` in the scrape route) -/

/-- JavaScript string falsiness (`!body.field`): true exactly for the
empty string. -/
def strFalsy (s : String) : Bool := s.data.isEmpty

/-- Character class `[^\s@]` of the email regex. -/
def emailTokChar (c : Char) : Bool := !c.isWhitespace && c != '@'

/-- The test `/^[^\s@]+@[^\s@]+\.[^\s@]+$/.test(s)`: the string is
`local` ++ "@" ++ `domain`, where `local` is a nonempty run of
non-space non-@ characters, and `domain` is a nonempty run of
non-space non-@ characters containing a '.' that is neither its first
nor its last character (the regex backtracks to find such a dot; all
three character classes admit dots). -/
def emailRegexTest (s : String) : Bool :=
  let cs := s.data
  let l := cs.takeWhile fun c => c != '@'
  match cs.dropWhile fun c => c != '@' with
  | [] => false
  | _ :: d =>
      !l.isEmpty && l.all emailTokChar &&
      !d.isEmpty && d.all emailTokChar &&
      ((d.drop 1).dropLast.contains '.')

/-- `supportedSites.includes(body.scrapeSite.toLowerCase())` with
`supportedSites = ["amazon", "blinkit"]`. -/
def siteSupported (s : String) : Bool :=
  ["amazon", "blinkit"].contains (lowerStr s)

/-- The filesystem and path facilities the `POST` handler uses,
abstracted: `path.resolve`, `fs.existsSync`, whether `fs.mkdirSync`
succeeds on a path, and the error message it throws with when it
fails. -/
structure FsModel where
  resolveP : String → String
  existsDir : String → Bool
  mkdirOk : String → Bool
  mkdirErr : String → String

/-- The `POST` response: a 400 JSON error or the success JSON carrying
the fresh session id. -/
inductive PostResponse where
  | badRequest (msg : String)
  | started (sessionId : String)
deriving DecidableEq

/-- What `POST` did: the response, whether a session id was allocated,
the request the background workflow was launched with (if it was), and
the `fs.mkdirSync(path, { recursive })` calls performed. -/
structure PostOutcome where
  response : PostResponse
  sessionAllocated : Bool
  workflowLaunched : Option ScrapingRequest
  mkdirCalls : List (String × Bool)
deriving DecidableEq

/-- All four required fields present (JS truthiness on strings). -/
def fieldsPresent (b : ScrapingRequest) : Bool :=
  !strFalsy b.scrapeSite && !strFalsy b.productName &&
  !strFalsy b.outputFolder && !strFalsy b.recipientEmail

/-- The spec's structural validation: required fields present, email
syntactically valid, site recognized — the three checks the `POST`
handler performs before touching the filesystem. -/
def structuralOk (b : ScrapingRequest) : Bool :=
  fieldsPresent b && emailRegexTest b.recipientEmail && siteSupported b.scrapeSite

/-- The output folder obstacle is absent: the resolved folder exists or
can be created. -/
def folderOk (fs : FsModel) (b : ScrapingRequest) : Bool :=
  fs.existsDir (fs.resolveP b.outputFolder) || fs.mkdirOk (fs.resolveP b.outputFolder)

/-- The `POST` handler of the scrape route, check for check in source
order: missing fields, email format, supported site, then resolving the
output folder and recursively creating it when absent (a creation
failure is a 400 and nothing more happens), then session id allocation
and the fire-and-forget `runWorkflow` launch on the body with the
resolved folder. -/
def POSTscrape (fs : FsModel) (newSessionId : String) (body : ScrapingRequest) :
    PostOutcome :=
  if !fieldsPresent body then
    { response := PostResponse.badRequest "Missing required fields",
      sessionAllocated := false, workflowLaunched := none, mkdirCalls := [] }
  else if !emailRegexTest body.recipientEmail then
    { response := PostResponse.badRequest "Invalid email format",
      sessionAllocated := false, workflowLaunched := none, mkdirCalls := [] }
  else if !siteSupported body.scrapeSite then
    { response := PostResponse.badRequest "Supported sites are: Amazon, Blinkit",
      sessionAllocated := false, workflowLaunched := none, mkdirCalls := [] }
  else
    let resolved := fs.resolveP body.outputFolder
    if !fs.existsDir resolved then
      if fs.mkdirOk resolved then
        { response := PostResponse.started newSessionId,
          sessionAllocated := true,
          workflowLaunched := some { body with outputFolder := resolved },
          mkdirCalls := [(resolved, true)] }
      else
        { response := PostResponse.badRequest
            ("Failed to create output folder at \"" ++ resolved ++ "\": " ++
             fs.mkdirErr resolved),
          sessionAllocated := false, workflowLaunched := none,
          mkdirCalls := [(resolved, true)] }
    else
      { response := PostResponse.started newSessionId,
        sessionAllocated := true,
        workflowLaunched := some { body with outputFolder := resolved },
        mkdirCalls := [] }

/-- The body with the site parameter replaced by its lowercase form. -/
def lowerBody (b : ScrapingRequest) : ScrapingRequest :=
  { b with scrapeSite := lowerStr b.scrapeSite }

/-! ## Generic trace lemmas -/

/-- Step indices of an event list. -/
def stepsOf (evs : List ProgressEvent) : List Nat :=
  evs.map fun e => e.step

/-- `nondecrFrom lo l`: `l` is non-decreasing and its first element is
at least `lo`. -/
def nondecrFrom : Nat → List Nat → Bool
  | _, [] => true
  | lo, a :: rest => decide (lo ≤ a) && nondecrFrom a rest

/-- A list of naturals is non-decreasing. -/
def nondecr (l : List Nat) : Bool := nondecrFrom 0 l

theorem nondecrFrom_append (l₁ l₂ : List Nat) : ∀ lo,
    nondecrFrom lo (l₁ ++ l₂) =
      (nondecrFrom lo l₁ && nondecrFrom (l₁.getLastD lo) l₂) := by
  induction l₁ with
  | nil => intro lo; simp [nondecrFrom]
  | cons a l₁ ih =>
      intro lo
      simp only [List.cons_append, nondecrFrom, List.append_eq, ih a,
        List.getLastD_cons, Bool.and_assoc]

theorem nondecrFrom_mono {lo lo' : Nat} (h : lo' ≤ lo) :
    ∀ {l : List Nat}, nondecrFrom lo l = true → nondecrFrom lo' l = true := by
  intro l
  cases l with
  | nil => simp [nondecrFrom]
  | cons a rest =>
      simp only [nondecrFrom, Bool.and_eq_true, decide_eq_true_eq]
      rintro ⟨h1, h2⟩
      exact ⟨Nat.le_trans h h1, h2⟩

theorem nondecrFrom_const (c : Nat) : ∀ (l : List Nat) (lo : Nat),
    (∀ x ∈ l, x = c) → lo ≤ c → nondecrFrom lo l = true := by
  intro l
  induction l with
  | nil => intro lo _ _; rfl
  | cons a rest ih =>
      intro lo hmem hlo
      have ha : a = c := hmem a (List.mem_cons_self a rest)
      simp only [nondecrFrom, Bool.and_eq_true, decide_eq_true_eq]
      refine ⟨ha ▸ hlo, ?_⟩
      exact ih a (fun x hx => hmem x (List.mem_cons_of_mem a hx)) (ha ▸ Nat.le_refl c)

theorem nondecr_append_const {l₁ l₂ : List Nat} {c : Nat}
    (h1 : nondecr l₁ = true) (h2 : ∀ x ∈ l₁, x ≤ c) (h3 : ∀ x ∈ l₂, x = c) :
    nondecr (l₁ ++ l₂) = true := by
  unfold nondecr at *
  rw [nondecrFrom_append, h1, Bool.true_and]
  refine nondecrFrom_const c l₂ _ h3 ?_
  cases hl : l₁.getLast? with
  | none =>
      simp [List.getLastD_eq_getLast?, hl]
  | some a =>
      have ha : a ∈ l₁ := List.mem_of_getLast?_eq_some hl
      simp only [List.getLastD_eq_getLast?, hl, Option.getD_some]
      exact h2 a ha

/-- The messages an execution of `acts` can emit: an announcement from
`acts`, or the streaming message of a script run by `acts`. -/
def msgFromActions (acts : List StageAction) (m : String) : Prop :=
  (StageAction.announce m ∈ acts) ∨
  ∃ s args, StageAction.runScript s args ∈ acts ∧ m = "Running " ++ s ++ "..."

theorem msgFromActions_weaken {acts : List StageAction} {a : StageAction} {m : String}
    (h : msgFromActions acts m) : msgFromActions (a :: acts) m := by
  rcases h with h | ⟨s, args, hmem, hm⟩
  · exact Or.inl (List.mem_cons_of_mem a h)
  · exact Or.inr ⟨s, args, List.mem_cons_of_mem a hmem, hm⟩

theorem runPythonScript_events (script : String) (b : ProcBehavior) (step : Nat) :
    ∀ e ∈ (runPythonScript script b step).1,
      e.step = step ∧ e.status = Status.running ∧ e.total = totalSteps ∧
      e.message = "Running " ++ script ++ "..." := by
  cases b with
  | exited code chunks stderr =>
      intro e he
      simp only [runPythonScript, streamEvents, List.mem_map] at he
      obtain ⟨out, _, rfl⟩ := he
      exact ⟨rfl, rfl, rfl, rfl⟩
  | spawnFailed m =>
      intro e he
      simp [runPythonScript] at he

theorem execActions_spec (env : Env) : ∀ (acts : List StageAction) (st : WfState),
    (execActions env st acts).1.currentStep = st.currentStep ∧
    ∃ evs invs,
      (execActions env st acts).1.events = st.events ++ evs ∧
      (execActions env st acts).1.invocations = st.invocations ++ invs ∧
      (∀ e ∈ evs, e.step = st.currentStep ∧ e.status = Status.running ∧
        e.total = totalSteps ∧ msgFromActions acts e.message) ∧
      (∀ i ∈ invs, i.step = st.currentStep ∧
        StageAction.runScript i.script i.args ∈ acts) := by
  intro acts
  induction acts with
  | nil =>
      intro st
      exact ⟨rfl, [], [], by simp [execActions], by simp [execActions],
        by simp, by simp⟩
  | cons a rest ih =>
      intro st
      cases a with
      | announce m =>
          obtain ⟨hcur, evs, invs, hev, hinv, hevp, hinvp⟩ :=
            ih (updateProgress st m Status.running none)
          refine ⟨hcur,
            (⟨st.currentStep, totalSteps, m, Status.running, none⟩ : ProgressEvent) :: evs,
            invs, ?_, ?_, ?_, ?_⟩
          · rw [show execActions env st (StageAction.announce m :: rest) =
                execActions env (updateProgress st m Status.running none) rest from rfl,
              hev]
            simp [updateProgress]
          · rw [show execActions env st (StageAction.announce m :: rest) =
                execActions env (updateProgress st m Status.running none) rest from rfl,
              hinv]
            simp [updateProgress]
          · intro e he
            rcases List.mem_cons.mp he with rfl | he'
            · exact ⟨rfl, rfl, rfl, Or.inl (List.mem_cons_self _ _)⟩
            · obtain ⟨h1, h2, h3, h4⟩ := hevp e he'
              exact ⟨h1, h2, h3, msgFromActions_weaken h4⟩
          · intro i hi
            obtain ⟨h1, h2⟩ := hinvp i hi
            exact ⟨h1, List.mem_cons_of_mem _ h2⟩
      | runScript s args =>
          have hstream := runPythonScript_events s (env st.invIdx) st.currentStep
          cases hr : (runPythonScript s (env st.invIdx) st.currentStep).2.1 with
          | ok v =>
              have hstep : execActions env st (StageAction.runScript s args :: rest) =
                  execActions env
                    { st with
                      events := st.events ++ (runPythonScript s (env st.invIdx) st.currentStep).1,
                      invocations := st.invocations ++
                        [{ step := st.currentStep, script := s, args := args }],
                      invIdx := st.invIdx + 1 } rest := by
                simp only [execActions, invokeScript, hr, Except.map]
              obtain ⟨hcur, evs, invs, hev, hinv, hevp, hinvp⟩ := ih
                { st with
                  events := st.events ++ (runPythonScript s (env st.invIdx) st.currentStep).1,
                  invocations := st.invocations ++
                    [{ step := st.currentStep, script := s, args := args }],
                  invIdx := st.invIdx + 1 }
              refine ⟨by rw [hstep]; exact hcur,
                (runPythonScript s (env st.invIdx) st.currentStep).1 ++ evs,
                { step := st.currentStep, script := s, args := args } :: invs,
                ?_, ?_, ?_, ?_⟩
              · rw [hstep, hev]; simp
              · rw [hstep, hinv]; simp
              · intro e he
                rcases List.mem_append.mp he with he' | he'
                · obtain ⟨h1, h2, h3, h4⟩ := hstream e he'
                  exact ⟨h1, h2, h3, Or.inr ⟨s, args, List.mem_cons_self _ _, h4⟩⟩
                · obtain ⟨h1, h2, h3, h4⟩ := hevp e he'
                  exact ⟨h1, h2, h3, msgFromActions_weaken h4⟩
              · intro i hi
                rcases List.mem_cons.mp hi with rfl | hi'
                · exact ⟨rfl, List.mem_cons_self _ _⟩
                · obtain ⟨h1, h2⟩ := hinvp i hi'
                  exact ⟨h1, List.mem_cons_of_mem _ h2⟩
          | error e =>
              have hstep : execActions env st (StageAction.runScript s args :: rest) =
                  ({ st with
                      events := st.events ++ (runPythonScript s (env st.invIdx) st.currentStep).1,
                      invocations := st.invocations ++
                        [{ step := st.currentStep, script := s, args := args }],
                      invIdx := st.invIdx + 1 }, Except.error e) := by
                simp only [execActions, invokeScript, hr, Except.map]
              refine ⟨by rw [hstep], (runPythonScript s (env st.invIdx) st.currentStep).1,
                [{ step := st.currentStep, script := s, args := args }],
                by rw [hstep], by rw [hstep], ?_, ?_⟩
              · intro ev hev
                obtain ⟨h1, h2, h3, h4⟩ := hstream ev hev
                exact ⟨h1, h2, h3, Or.inr ⟨s, args, List.mem_cons_self _ _, h4⟩⟩
              · intro i hi
                rcases List.mem_singleton.mp hi with rfl
                exact ⟨rfl, List.mem_cons_self _ _⟩

theorem execStages_spec (env : Env) : ∀ (plans : List StagePlan) (st : WfState),
    ∃ evs invs,
      (execStages env st plans).1.events = st.events ++ evs ∧
      (execStages env st plans).1.invocations = st.invocations ++ invs ∧
      (∀ e ∈ evs, e.status = Status.running ∧ e.total = totalSteps ∧
        ∃ sp ∈ plans, e.step = sp.index ∧ msgFromActions sp.actions e.message) ∧
      (∀ i ∈ invs, ∃ sp ∈ plans, i.step = sp.index ∧
        StageAction.runScript i.script i.args ∈ sp.actions) := by
  intro plans
  induction plans with
  | nil =>
      intro st
      exact ⟨[], [], by simp [execStages], by simp [execStages], by simp, by simp⟩
  | cons sp rest ih =>
      intro st
      obtain ⟨hcur, evs₁, invs₁, hev₁, hinv₁, hevp₁, hinvp₁⟩ :=
        execActions_spec env sp.actions { st with currentStep := sp.index }
      cases hx : execActions env { st with currentStep := sp.index } sp.actions with
      | mk st₁ res =>
          have hev₁' : st₁.events = st.events ++ evs₁ := by rw [← hev₁, hx]
          have hinv₁' : st₁.invocations = st.invocations ++ invs₁ := by rw [← hinv₁, hx]
          cases res with
          | ok v =>
              have hstep : execStages env st (sp :: rest) = execStages env st₁ rest := by
                simp only [execStages, hx]
              obtain ⟨evs₂, invs₂, hev₂, hinv₂, hevp₂, hinvp₂⟩ := ih st₁
              refine ⟨evs₁ ++ evs₂, invs₁ ++ invs₂, ?_, ?_, ?_, ?_⟩
              · rw [hstep, hev₂, hev₁']; simp
              · rw [hstep, hinv₂, hinv₁']; simp
              · intro e he
                rcases List.mem_append.mp he with he' | he'
                · obtain ⟨h1, h2, h3, h4⟩ := hevp₁ e he'
                  exact ⟨h2, h3, sp, List.mem_cons_self _ _, h1, h4⟩
                · obtain ⟨h1, h2, sp', hsp', h3, h4⟩ := hevp₂ e he'
                  exact ⟨h1, h2, sp', List.mem_cons_of_mem _ hsp', h3, h4⟩
              · intro i hi
                rcases List.mem_append.mp hi with hi' | hi'
                · obtain ⟨h1, h2⟩ := hinvp₁ i hi'
                  exact ⟨sp, List.mem_cons_self _ _, h1, h2⟩
                · obtain ⟨sp', hsp', h1, h2⟩ := hinvp₂ i hi'
                  exact ⟨sp', List.mem_cons_of_mem _ hsp', h1, h2⟩
          | error e =>
              have hstep : execStages env st (sp :: rest) = (st₁, Except.error e) := by
                simp only [execStages, hx]
              refine ⟨evs₁, invs₁, by rw [hstep]; exact hev₁', by rw [hstep]; exact hinv₁',
                ?_, ?_⟩
              · intro ev hev
                obtain ⟨h1, h2, h3, h4⟩ := hevp₁ ev hev
                exact ⟨h2, h3, sp, List.mem_cons_self _ _, h1, h4⟩
              · intro i hi
                obtain ⟨h1, h2⟩ := hinvp₁ i hi
                exact ⟨sp, List.mem_cons_self _ _, h1, h2⟩

/-- Invariant carried through the run: the emitted step indices are
non-decreasing, and nothing has been emitted or invoked beyond the
current step. -/
def stateMono (st : WfState) : Prop :=
  nondecr (stepsOf st.events) = true ∧
  (∀ e ∈ st.events, e.step ≤ st.currentStep) ∧
  (∀ i ∈ st.invocations, i.step ≤ st.currentStep)

theorem execActions_mono (env : Env) (acts : List StageAction) (st : WfState)
    (h : stateMono st) : stateMono (execActions env st acts).1 := by
  obtain ⟨hcur, evs, invs, hev, hinv, hevp, hinvp⟩ := execActions_spec env acts st
  obtain ⟨h1, h2, h3⟩ := h
  refine ⟨?_, ?_, ?_⟩
  · rw [hev]
    unfold stepsOf at *
    rw [List.map_append]
    refine nondecr_append_const (c := st.currentStep) h1 ?_ ?_
    · intro x hx
      obtain ⟨e, he, rfl⟩ := List.mem_map.mp hx
      exact h2 e he
    · intro x hx
      obtain ⟨e, he, rfl⟩ := List.mem_map.mp hx
      exact (hevp e he).1
  · rw [hev, hcur]
    intro e he
    rcases List.mem_append.mp he with he' | he'
    · exact h2 e he'
    · exact Nat.le_of_eq (hevp e he').1
  · rw [hinv, hcur]
    intro i hi
    rcases List.mem_append.mp hi with hi' | hi'
    · exact h3 i hi'
    · exact Nat.le_of_eq (hinvp i hi').1

/-- The stage indices are at least `lo` and ascend along the list. -/
def plansAscending : Nat → List StagePlan → Bool
  | _, [] => true
  | lo, sp :: rest => decide (lo ≤ sp.index) && plansAscending sp.index rest

theorem stateMono_bump {st : WfState} {n : Nat} (h : stateMono st)
    (hle : st.currentStep ≤ n) : stateMono { st with currentStep := n } := by
  obtain ⟨h1, h2, h3⟩ := h
  exact ⟨h1, fun e he => Nat.le_trans (h2 e he) hle,
    fun i hi => Nat.le_trans (h3 i hi) hle⟩

theorem execStages_mono (env : Env) : ∀ (plans : List StagePlan) (st : WfState),
    stateMono st → plansAscending st.currentStep plans = true →
    stateMono (execStages env st plans).1 := by
  intro plans
  induction plans with
  | nil =>
      intro st h _
      simpa [execStages] using h
  | cons sp rest ih =>
      intro st h hasc
      simp only [plansAscending, Bool.and_eq_true_iff, decide_eq_true_eq] at hasc
      obtain ⟨hle, hasc'⟩ := hasc
      have hact := execActions_mono env sp.actions _ (stateMono_bump h hle)
      have hcur := (execActions_spec env sp.actions { st with currentStep := sp.index }).1
      cases hx : execActions env { st with currentStep := sp.index } sp.actions with
      | mk st₁ res =>
          rw [hx] at hact hcur
          cases res with
          | ok v =>
              have hstep : execStages env st (sp :: rest) = execStages env st₁ rest := by
                simp only [execStages, hx]
              rw [hstep]
              exact ih st₁ hact (by rw [hcur]; exact hasc')
          | error e =>
              have hstep : execStages env st (sp :: rest) = (st₁, Except.error e) := by
                simp only [execStages, hx]
              rw [hstep]
              exact hact

theorem execStages_error_index (env : Env) : ∀ (plans : List StagePlan)
    (st st' : WfState) (e : String),
    execStages env st plans = (st', Except.error e) →
    ∃ sp ∈ plans, st'.currentStep = sp.index := by
  intro plans
  induction plans with
  | nil =>
      intro st st' e h
      simp [execStages] at h
  | cons sp rest ih =>
      intro st st' e h
      have hcur := (execActions_spec env sp.actions { st with currentStep := sp.index }).1
      cases hx : execActions env { st with currentStep := sp.index } sp.actions with
      | mk st₁ res =>
          rw [hx] at hcur
          cases res with
          | ok v =>
              rw [show execStages env st (sp :: rest) = execStages env st₁ rest from by
                simp only [execStages, hx]] at h
              obtain ⟨sp', hsp', h'⟩ := ih st₁ st' e h
              exact ⟨sp', List.mem_cons_of_mem _ hsp', h'⟩
          | error e' =>
              rw [show execStages env st (sp :: rest) = (st₁, Except.error e') from by
                simp only [execStages, hx]] at h
              cases h
              exact ⟨sp, List.mem_cons_self _ _, hcur⟩

theorem plansAscending_stagePlans (p : ScrapingRequest) :
    plansAscending 0 (stagePlans p) = true := rfl

theorem stagePlans_index_pos (p : ScrapingRequest) :
    ∀ sp ∈ stagePlans p, 1 ≤ sp.index := by
  intro sp hsp
  simp only [stagePlans, List.mem_cons, List.not_mem_nil, or_false] at hsp
  rcases hsp with rfl | rfl | rfl | rfl | rfl | rfl <;> simp

theorem initState_mono : stateMono initState := by
  refine ⟨rfl, ?_, ?_⟩ <;> intro x hx <;> simp [initState] at hx

/-- Case analysis of `runWorkflow`: the stage execution result, with the
body invariants, and how the final event is attached in each case. -/
theorem runWorkflow_spec (p : ScrapingRequest) (env : Env) :
    ∃ st r, execStages env initState (stagePlans p) = (st, r) ∧
      stateMono st ∧
      st.events.countP isTerminalEvent = 0 ∧
      (∀ e ∈ st.events, e.total = totalSteps) ∧
      (match r with
       | Except.ok _ => runWorkflow p env =
           (updateProgress st "All tasks completed successfully!" Status.completed none,
            Except.ok ())
       | Except.error e => runWorkflow p env =
           (updateProgress st ("Error: " ++ e) Status.error none, Except.error e)) := by
  obtain ⟨evs, invs, hev, hinv, hevp, hinvp⟩ :=
    execStages_spec env (stagePlans p) initState
  have hmono := execStages_mono env (stagePlans p) initState initState_mono
    (plansAscending_stagePlans p)
  cases hx : execStages env initState (stagePlans p) with
  | mk st r =>
      rw [hx] at hev hinv hmono
      have hev' : st.events = evs := by simpa [initState] using hev
      refine ⟨st, r, rfl, hmono, ?_, ?_, ?_⟩
      · rw [hev']
        refine List.countP_eq_zero.mpr ?_
        intro e he
        have := (hevp e he).1
        simp [isTerminalEvent, this, isTerminalStatus]
      · intro e he
        rw [hev'] at he
        exact (hevp e he).2.1
      · cases r with
        | ok v =>
            show runWorkflow p env = _
            unfold runWorkflow
            rw [hx]
        | error e =>
            show runWorkflow p env = _
            unfold runWorkflow
            rw [hx]

/-- Boolean success of the workflow promise. -/
def isOkB : Except String Unit → Bool
  | Except.ok _ => true
  | Except.error _ => false

/-- Claim C1 (amended): the delivered sequence always ends in a terminal
event, and the orchestrator emits exactly one terminal event; a
successful run delivers exactly one terminal event (`completed`, last),
while a failed run delivers exactly two terminal events — the
orchestrator's `error` event followed by the entry point's backstop
`error` event, which is last. -/
theorem c1_terminal_event_count (p : ScrapingRequest) (env : Env) :
    (sessionEvents p env).countP isTerminalEvent =
      (match (runWorkflow p env).2 with
       | Except.ok _ => 1
       | Except.error _ => 2) ∧
    ∃ ev, (sessionEvents p env).getLast? = some ev ∧ isTerminalEvent ev = true := by
  obtain ⟨st, r, hx, hmono, hcount, htot, hmatch⟩ := runWorkflow_spec p env
  cases r with
  | ok v =>
      simp only at hmatch
      constructor
      · simp only [sessionEvents, hmatch, List.append_nil, List.countP_cons,
          List.countP_append, updateProgress, hcount]
        simp [isTerminalEvent, connectedEvent, isTerminalStatus, List.countP_cons]
      · refine ⟨⟨st.currentStep, totalSteps, "All tasks completed successfully!",
          Status.completed, none⟩, ?_, rfl⟩
        simp only [sessionEvents, hmatch, List.append_nil, updateProgress]
        rw [← List.cons_append, List.getLast?_concat]
  | error e =>
      simp only at hmatch
      constructor
      · simp only [sessionEvents, hmatch, List.countP_cons, List.countP_append,
          updateProgress, hcount]
        simp [isTerminalEvent, connectedEvent, backstopEvent, isTerminalStatus,
          List.countP_cons]
      · refine ⟨backstopEvent e, ?_, rfl⟩
        simp only [sessionEvents, hmatch]
        rw [List.getLast?_concat]

/-- Claim C1, original form, fails on the code: on a failed run the
subscriber observes two `error` events (the orchestrator's and the
entry point backstop's), not exactly one terminal event.  Concretely:
an amazon request whose first script exits 1. -/
theorem c1_counterexample :
    ((sessionEvents (⟨"amazon", "p", "o", "a@b.c"⟩ : ScrapingRequest)
        (fun _ => ProcBehavior.exited 1 [] "boom")).countP isTerminalEvent = 2) ∧
    ¬ ((sessionEvents (⟨"amazon", "p", "o", "a@b.c"⟩ : ScrapingRequest)
        (fun _ => ProcBehavior.exited 1 [] "boom")).countP isTerminalEvent = 1) := by
  constructor <;> decide

theorem nondecr_snoc_break (l : List Nat) (k : Nat) (hk : 1 ≤ k) :
    nondecr ((l ++ [k]) ++ [0]) = false := by
  unfold nondecr
  rw [List.append_assoc, nondecrFrom_append]
  have h2 : nondecrFrom (l.getLastD 0) ([k] ++ [0]) = false := by
    simp only [List.singleton_append, nondecrFrom]
    have h0 : ¬ (k ≤ 0) := by omega
    simp [h0]
  rw [h2, Bool.and_false]

/-- Claim C2 (amended): the step indices of the events the orchestrator
itself emits are always non-decreasing, and the full delivered sequence
is non-decreasing exactly when the run succeeds — on a failed run the
entry point's final backstop `error` event is reported at step 0, below
the failing step, breaking monotonicity at the very end. -/
theorem c2_step_monotonicity (p : ScrapingRequest) (env : Env) :
    nondecr (stepsOf (runWorkflow p env).1.events) = true ∧
    nondecr (stepsOf (sessionEvents p env)) = isOkB (runWorkflow p env).2 := by
  obtain ⟨st, r, hx, hmono, hcount, htot, hmatch⟩ := runWorkflow_spec p env
  obtain ⟨hm1, hm2, hm3⟩ := hmono
  have hbody : ∀ msg status,
      nondecr (stepsOf (updateProgress st msg status none).events) = true := by
    intro msg status
    simp only [updateProgress, stepsOf, List.map_append]
    refine nondecr_append_const (c := st.currentStep) hm1 ?_ ?_
    · intro x hx'
      obtain ⟨e', he', rfl⟩ := List.mem_map.mp hx'
      exact hm2 e' he'
    · intro x hx'
      simp only [List.map_cons, List.map_nil, List.mem_singleton] at hx'
      exact hx'
  cases r with
  | ok v =>
      simp only at hmatch
      refine ⟨by rw [hmatch]; exact hbody _ _, ?_⟩
      have h2 : nondecr (stepsOf (updateProgress st
          "All tasks completed successfully!" Status.completed none).events) = true :=
        hbody _ _
      simp only [sessionEvents, hmatch, List.append_nil, stepsOf, List.map_cons]
      simp only [stepsOf] at h2
      show (decide (0 ≤ connectedEvent.step) &&
        nondecrFrom connectedEvent.step _) = isOkB (Except.ok ())
      simp only [connectedEvent, isOkB]
      simpa using h2
  | error e =>
      simp only at hmatch
      have hk : 1 ≤ st.currentStep := by
        obtain ⟨sp, hsp, hidx⟩ := execStages_error_index env (stagePlans p)
          initState st e hx
        rw [hidx]
        exact stagePlans_index_pos p sp hsp
      refine ⟨by rw [hmatch]; exact hbody _ _, ?_⟩
      simp only [sessionEvents, hmatch, isOkB]
      simp only [updateProgress, stepsOf, List.map_append, List.map_cons, List.map_nil]
      rw [show connectedEvent.step :: (List.map (fun e => e.step) st.events ++
            [st.currentStep]) =
          (connectedEvent.step :: List.map (fun e => e.step) st.events) ++
            [st.currentStep] from by simp]
      rw [show (backstopEvent e).step = 0 from rfl]
      exact nondecr_snoc_break _ _ hk

/-- Claim C2, original form, fails on the code: on a failed run the
final backstop event is reported at step 0 after the orchestrator's
error event at the failing step, so the delivered step sequence
decreases at the end.  Concretely: an amazon request whose first script
exits 1 yields the step sequence [0, 1, 1, 0]. -/
theorem c2_counterexample :
    nondecr (stepsOf (sessionEvents (⟨"amazon", "p", "o", "a@b.c"⟩ : ScrapingRequest)
      (fun _ => ProcBehavior.exited 1 [] "boom"))) = false := by
  decide

/-- The `error` event the `catch` block of `runWorkflow` emits for a
failure message `e` at stage `k`. -/
def catchEvent (k : Nat) (e : String) : ProgressEvent :=
  { step := k, total := totalSteps, message := "Error: " ++ e,
    status := Status.error, details := none }

/-- Claim C3: when the workflow fails with message `e`, there is a
failing stage index `k ≥ 1` such that: the orchestrator's last event is
the single `error` event carrying the failure message at step `k`; it
is the orchestrator's only terminal event; every event the subscriber
observes has step at most `k` (so no event references stage `k+1` or
later); and every external invocation of the run was made at a stage of
index at most `k` (no later stage's task is ever invoked). -/
theorem c3_failure_stops_pipeline (p : ScrapingRequest) (env : Env) (e : String)
    (h : (runWorkflow p env).2 = Except.error e) :
    ∃ k, 1 ≤ k ∧
      (runWorkflow p env).1.events.getLast? = some (catchEvent k e) ∧
      (runWorkflow p env).1.events.countP isTerminalEvent = 1 ∧
      (∀ ev ∈ sessionEvents p env, ev.step ≤ k) ∧
      (∀ i ∈ (runWorkflow p env).1.invocations, i.step ≤ k) := by
  obtain ⟨st, r, hx, hmono, hcount, htot, hmatch⟩ := runWorkflow_spec p env
  obtain ⟨hm1, hm2, hm3⟩ := hmono
  cases r with
  | ok v =>
      simp only at hmatch
      rw [hmatch] at h
      simp at h
  | error e' =>
      simp only at hmatch
      rw [hmatch] at h
      simp only at h
      cases h
      have hk : 1 ≤ st.currentStep := by
        obtain ⟨sp, hsp, hidx⟩ := execStages_error_index env (stagePlans p)
          initState st e hx
        rw [hidx]
        exact stagePlans_index_pos p sp hsp
      refine ⟨st.currentStep, hk, ?_, ?_, ?_, ?_⟩
      · rw [hmatch]
        simp only [updateProgress]
        rw [List.getLast?_concat]
        rfl
      · rw [hmatch]
        simp only [updateProgress, List.countP_append, hcount]
        simp [isTerminalEvent, isTerminalStatus, List.countP_cons]
      · intro ev hev
        simp only [sessionEvents, hmatch, List.mem_append, List.mem_cons,
          List.mem_singleton, updateProgress] at hev
        rcases hev with (rfl | hev' | rfl | h0) | (rfl | h0)
        · exact Nat.zero_le _
        · exact hm2 ev hev'
        · exact Nat.le_refl _
        · simp at h0
        · exact Nat.zero_le _
        · simp at h0
      · intro i hi
        rw [hmatch] at hi
        simp only [updateProgress] at hi
        exact hm3 i hi

/-- Witness for C3 at a concrete input: an amazon request whose very
first script exits 1 with stderr "boom". -/
theorem c3_failure_stops_pipeline_witness :
    ((runWorkflow (⟨"amazon", "p", "o", "a@b.c"⟩ : ScrapingRequest)
        (fun _ => ProcBehavior.exited 1 [] "boom")).2 =
      Except.error (failMsg "product_analyzer.py" 1 "boom")) ∧
    (∃ k, 1 ≤ k ∧
      (runWorkflow (⟨"amazon", "p", "o", "a@b.c"⟩ : ScrapingRequest)
          (fun _ => ProcBehavior.exited 1 [] "boom")).1.events.getLast? =
        some (catchEvent k (failMsg "product_analyzer.py" 1 "boom")) ∧
      (runWorkflow (⟨"amazon", "p", "o", "a@b.c"⟩ : ScrapingRequest)
          (fun _ => ProcBehavior.exited 1 [] "boom")).1.events.countP isTerminalEvent = 1 ∧
      (∀ ev ∈ sessionEvents (⟨"amazon", "p", "o", "a@b.c"⟩ : ScrapingRequest)
          (fun _ => ProcBehavior.exited 1 [] "boom"), ev.step ≤ k) ∧
      (∀ i ∈ (runWorkflow (⟨"amazon", "p", "o", "a@b.c"⟩ : ScrapingRequest)
          (fun _ => ProcBehavior.exited 1 [] "boom")).1.invocations, i.step ≤ k)) :=
  ⟨rfl, c3_failure_stops_pipeline _ _ _ rfl⟩

theorem mapGet_mapSet_self : ∀ (m : List (String × Nat)) (k : String) (v : Nat),
    mapGet (mapSet m k v) k = some v := by
  intro m k v
  induction m with
  | nil => simp [mapSet, mapGet]
  | cons kv rest ih =>
      cases kv with
      | mk k' v' =>
          by_cases h : k' = k
          · simp [mapSet, mapGet, h]
          · simp [mapSet, mapGet, h, ih]

theorem mapGet_mapSet_ne : ∀ (m : List (String × Nat)) (k k' : String) (v : Nat),
    k' ≠ k → mapGet (mapSet m k v) k' = mapGet m k' := by
  intro m k k' v hne
  have hkk : k ≠ k' := fun h => hne h.symm
  induction m with
  | nil => simp [mapSet, mapGet, hkk]
  | cons kv rest ih =>
      cases kv with
      | mk a b =>
          by_cases h : a = k
          · subst h
            simp [mapSet, mapGet, hkk]
          · simp only [mapSet, if_neg h, mapGet, ih]

/-- Claim C4, original form, fails on the code: registering a second
subscriber for a session id that already has one raises no error at all
and silently replaces the existing entry — `progressStreams.set` simply
overwrites.  Concretely: subscribing controller 1 and then controller 2
for session "s" leaves the map at controller 2 with no 400 response. -/
theorem c4_counterexample :
    ((GETprogress (GETprogress [] "s" 1).1 "s" 2).1 = [("s", 2)]) ∧
    ((GETprogress (GETprogress [] "s" 1).1 "s" 2).2.2 = false) := by
  constructor <;> decide

/-- Claim C4 (amended): `GET` with a nonempty session id always
succeeds: it never reports a duplicate-session error, maps the session
id to the new subscriber (replacing any existing entry for it), leaves
every other session's entry unchanged, and enqueues the synthetic
connection event on the new subscriber. -/
theorem c4_subscribe_replaces (streams : List (String × Nat)) (sid : String)
    (c : Nat) (h : sid.data.isEmpty = false) :
    ((GETprogress streams sid c).2.2 = false) ∧
    (mapGet (GETprogress streams sid c).1 sid = some c) ∧
    ((GETprogress streams sid c).2.1 = some connectedEvent) ∧
    (∀ k, k ≠ sid → mapGet (GETprogress streams sid c).1 k = mapGet streams k) := by
  refine ⟨?_, ?_, ?_, ?_⟩ <;>
    simp only [GETprogress, h, Bool.false_eq_true, if_false]
  · exact mapGet_mapSet_self streams sid c
  · intro k hk
    exact mapGet_mapSet_ne streams sid k c hk

/-- Witness for C4 (amended) at a concrete input: replacing the
subscriber of session "s". -/
theorem c4_subscribe_replaces_witness :
    ((("s" : String).data.isEmpty = false) ∧
     ((GETprogress [("s", 1)] "s" 2).2.2 = false) ∧
     (mapGet (GETprogress [("s", 1)] "s" 2).1 "s" = some 2)) :=
  ⟨by decide, (c4_subscribe_replaces [("s", 1)] "s" 2 (by decide)).1,
    (c4_subscribe_replaces [("s", 1)] "s" 2 (by decide)).2.1⟩

/-- Claim C5: `sendProgressUpdate` for a session with no registered
subscriber returns the map unchanged and delivers nothing (a silent
no-op), and when the registered subscriber's delivery fails the event
is dropped and the subscriber entry is removed; in both cases no close
is scheduled and the function returns normally (the enqueue exception
is swallowed, so the orchestrator is never aborted). -/
theorem c5_publish_absent_or_failed (streams : List (String × Nat)) (sid : String)
    (u : ProgressEvent) (deliveryOk : Nat → Bool)
    (h : undeliverable streams sid deliveryOk = true) :
    sendProgressUpdate streams sid u deliveryOk =
      ((match mapGet streams sid with
        | none => streams
        | some _ => mapDelete streams sid), [], false) := by
  unfold undeliverable at h
  unfold sendProgressUpdate
  cases hm : mapGet streams sid with
  | none => simp
  | some c =>
      rw [hm] at h
      simp only [Bool.not_eq_true'] at h
      simp [h]

/-- Witness for C5 at concrete inputs: no subscriber registered for
"t", and a failing delivery for the registered subscriber of "s". -/
theorem c5_publish_absent_or_failed_witness :
    ((undeliverable [("s", 0)] "t" (fun _ => true) = true) ∧
     sendProgressUpdate [("s", 0)] "t" connectedEvent (fun _ => true) =
       ([("s", 0)], [], false)) ∧
    ((undeliverable [("s", 0)] "s" (fun _ => false) = true) ∧
     sendProgressUpdate [("s", 0)] "s" connectedEvent (fun _ => false) =
       ([], [], false)) :=
  ⟨⟨by decide, c5_publish_absent_or_failed [("s", 0)] "t" connectedEvent
      (fun _ => true) (by decide)⟩,
   ⟨by decide, c5_publish_absent_or_failed [("s", 0)] "s" connectedEvent
      (fun _ => false) (by decide)⟩⟩

theorem string_append_ne_of_head {p q : String} (x y : String) {c d : Char}
    (hp : p.data.head? = some c) (hq : q.data.head? = some d) (hcd : c ≠ d) :
    p ++ x ≠ q ++ y := by
  intro h
  have hdata := congrArg String.data h
  rw [String.data_append, String.data_append] at hdata
  have hhead := congrArg List.head? hdata
  rw [List.head?_append, List.head?_append, hp, hq] at hhead
  simp only [Option.or_some] at hhead
  exact hcd (Option.some.inj hhead)

theorem failMsg_ne_spawnMsg (s₁ : String) (code : Int) (stderr : String)
    (s₂ m : String) : failMsg s₁ code stderr ≠ spawnMsg s₂ m := by
  unfold failMsg spawnMsg
  have h := string_append_ne_of_head
    (p := "Script ") (q := "Failed to start script ")
    (s₁ ++ " failed with code " ++ toString code ++ ". Error: " ++ stderr)
    (s₂ ++ ": " ++ m) (c := 'S') (d := 'F') rfl rfl (by decide)
  intro hEq
  apply h
  calc "Script " ++ (s₁ ++ " failed with code " ++ toString code ++ ". Error: " ++ stderr)
      = "Script " ++ s₁ ++ " failed with code " ++ toString code ++ ". Error: " ++ stderr := by
        simp [String.append_assoc]
    _ = "Failed to start script " ++ s₂ ++ ": " ++ m := hEq
    _ = "Failed to start script " ++ (s₂ ++ ": " ++ m) := by
        simp [String.append_assoc]

/-- Claim C6: `runPythonScript` spawns exactly once (spawn count 1, no
retry) and its outcome resolves to the fully captured stdout if and
only if the process exits with code 0; a nonzero exit rejects with the
message carrying that exit code and the fully captured stderr; a spawn
failure rejects with the spawn message, and a spawn-failure message can
never coincide with a nonzero-exit failure message (their fixed
prefixes differ), so the two outcomes are distinct. -/
theorem c6_task_runner_outcomes (script : String) (b : ProcBehavior) (step : Nat) :
    ((∃ s, (runPythonScript script b step).2.1 = Except.ok s) ↔
      ∃ chunks stderr, b = ProcBehavior.exited 0 chunks stderr) ∧
    (∀ chunks stderr, b = ProcBehavior.exited 0 chunks stderr →
      (runPythonScript script b step).2.1 = Except.ok (String.join chunks)) ∧
    (∀ code chunks stderr, b = ProcBehavior.exited code chunks stderr → code ≠ 0 →
      (runPythonScript script b step).2.1 = Except.error (failMsg script code stderr)) ∧
    (∀ m, b = ProcBehavior.spawnFailed m →
      (runPythonScript script b step).2.1 = Except.error (spawnMsg script m)) ∧
    (∀ code stderr m, failMsg script code stderr ≠ spawnMsg script m) ∧
    (runPythonScript script b step).2.2 = 1 := by
  refine ⟨⟨?_, ?_⟩, ?_, ?_, ?_, ?_, ?_⟩
  · rintro ⟨s, hs⟩
    cases b with
    | exited code chunks stderr =>
        by_cases hc : code = 0
        · exact ⟨chunks, stderr, by rw [hc]⟩
        · simp [runPythonScript, hc] at hs
    | spawnFailed m => simp [runPythonScript] at hs
  · rintro ⟨chunks, stderr, rfl⟩
    exact ⟨String.join chunks, by simp [runPythonScript]⟩
  · rintro chunks stderr rfl
    simp [runPythonScript]
  · rintro code chunks stderr rfl hc
    simp [runPythonScript, hc]
  · rintro m rfl
    simp [runPythonScript]
  · intro code stderr m
    exact failMsg_ne_spawnMsg script code stderr script m
  · cases b <;> simp [runPythonScript]

/-- Witness for C6 at concrete inputs: exit 0 with stdout, exit 2 with
stderr, and a spawn failure, for a single fixed script name. -/
theorem c6_task_runner_outcomes_witness :
    ((runPythonScript "x.py" (ProcBehavior.exited 0 ["out"] "") 1).2.1 =
       Except.ok (String.join ["out"])) ∧
    ((runPythonScript "x.py" (ProcBehavior.exited 2 [] "bad") 1).2.1 =
       Except.error (failMsg "x.py" 2 "bad")) ∧
    ((runPythonScript "x.py" (ProcBehavior.spawnFailed "ENOENT") 1).2.1 =
       Except.error (spawnMsg "x.py" "ENOENT")) ∧
    (failMsg "x.py" 2 "bad" ≠ spawnMsg "x.py" "ENOENT") ∧
    ((runPythonScript "x.py" (ProcBehavior.exited 0 ["out"] "") 1).2.2 = 1) :=
  ⟨(c6_task_runner_outcomes "x.py" (ProcBehavior.exited 0 ["out"] "") 1).2.1
      ["out"] "" rfl,
   (c6_task_runner_outcomes "x.py" (ProcBehavior.exited 2 [] "bad") 1).2.2.1
      2 [] "bad" rfl (by decide),
   (c6_task_runner_outcomes "x.py" (ProcBehavior.spawnFailed "ENOENT") 1).2.2.2.1
      "ENOENT" rfl,
   (c6_task_runner_outcomes "x.py" (ProcBehavior.exited 2 [] "bad") 1).2.2.2.2.1
      2 "bad" "ENOENT",
   (c6_task_runner_outcomes "x.py" (ProcBehavior.exited 0 ["out"] "") 1).2.2.2.2.2⟩

/-- Claim C7 (amended): the start endpoint rejects with a 400 exactly
when structural validation fails (missing field, malformed email,
unrecognized site) or when the resolved output folder neither exists
nor can be created; only in the remaining cases does it return the
fresh session id immediately, and a session is allocated and the
workflow launched (on the body with the resolved folder) exactly in
those cases. -/
theorem c7_start_decision (fs : FsModel) (sid : String) (body : ScrapingRequest) :
    ((POSTscrape fs sid body).response = PostResponse.started sid ↔
      (structuralOk body && folderOk fs body) = true) ∧
    ((POSTscrape fs sid body).sessionAllocated = (structuralOk body && folderOk fs body)) ∧
    ((POSTscrape fs sid body).workflowLaunched =
      if structuralOk body && folderOk fs body then
        some { body with outputFolder := fs.resolveP body.outputFolder }
      else none) := by
  unfold POSTscrape structuralOk folderOk
  cases hf : fieldsPresent body <;>
    cases he : emailRegexTest body.recipientEmail <;>
      cases hs : siteSupported body.scrapeSite <;>
        cases hex : fs.existsDir (fs.resolveP body.outputFolder) <;>
          cases hmk : fs.mkdirOk (fs.resolveP body.outputFolder) <;>
            simp [hf, he, hs, hex, hmk]

/-- Claim C7, original form, fails on the code: a structurally valid
request (all fields present, recognized site, well-formed email) is
still rejected with a 400 — and no session id is allocated — when the
output folder does not exist and cannot be created. -/
theorem c7_counterexample :
    (structuralOk (⟨"amazon", "p", "o", "a@b.c"⟩ : ScrapingRequest) = true) ∧
    ((POSTscrape ⟨fun s => s, fun _ => false, fun _ => false, fun _ => "EACCES"⟩ "sid"
        (⟨"amazon", "p", "o", "a@b.c"⟩ : ScrapingRequest)).response =
      PostResponse.badRequest "Failed to create output folder at \"o\": EACCES") ∧
    ((POSTscrape ⟨fun s => s, fun _ => false, fun _ => false, fun _ => "EACCES"⟩ "sid"
        (⟨"amazon", "p", "o", "a@b.c"⟩ : ScrapingRequest)).sessionAllocated = false) := by
  refine ⟨by decide, by decide, by decide⟩

/-- Claim C9: on a structurally valid request whose resolved output
folder does not exist, `POST` performs exactly one recursive
`mkdirSync` call on the resolved path before allocating any session id;
if that creation fails the request is rejected with a 400 carrying the
resolved path and the failure message and no session is allocated nor a
workflow launched; if it succeeds the session id is returned. -/
theorem c9_output_folder_creation (fs : FsModel) (sid : String) (body : ScrapingRequest)
    (h1 : structuralOk body = true)
    (h2 : fs.existsDir (fs.resolveP body.outputFolder) = false) :
    ((POSTscrape fs sid body).mkdirCalls = [(fs.resolveP body.outputFolder, true)]) ∧
    (fs.mkdirOk (fs.resolveP body.outputFolder) = false →
      (POSTscrape fs sid body).response =
        PostResponse.badRequest ("Failed to create output folder at \"" ++
          fs.resolveP body.outputFolder ++ "\": " ++
          fs.mkdirErr (fs.resolveP body.outputFolder)) ∧
      (POSTscrape fs sid body).sessionAllocated = false ∧
      (POSTscrape fs sid body).workflowLaunched = none) ∧
    (fs.mkdirOk (fs.resolveP body.outputFolder) = true →
      (POSTscrape fs sid body).response = PostResponse.started sid) := by
  unfold structuralOk at h1
  rw [Bool.and_eq_true_iff, Bool.and_eq_true_iff] at h1
  obtain ⟨⟨hf, he⟩, hs⟩ := h1
  unfold POSTscrape
  cases hmk : fs.mkdirOk (fs.resolveP body.outputFolder) <;>
    simp [hf, he, hs, h2, hmk]

/-- Witness for C9 at a concrete input: a valid request with an
absent, uncreatable output folder. -/
theorem c9_output_folder_creation_witness :
    ((structuralOk (⟨"amazon", "p", "o", "a@b.c"⟩ : ScrapingRequest) = true) ∧
     ((⟨fun s => s, fun _ => false, fun _ => false, fun _ => "EACCES"⟩ : FsModel).existsDir
        ((⟨fun s => s, fun _ => false, fun _ => false, fun _ => "EACCES"⟩ : FsModel).resolveP
          (⟨"amazon", "p", "o", "a@b.c"⟩ : ScrapingRequest).outputFolder) = false)) ∧
    ((POSTscrape ⟨fun s => s, fun _ => false, fun _ => false, fun _ => "EACCES"⟩ "sid"
        (⟨"amazon", "p", "o", "a@b.c"⟩ : ScrapingRequest)).mkdirCalls = [("o", true)]) :=
  ⟨⟨by decide, rfl⟩,
   (c9_output_folder_creation
      ⟨fun s => s, fun _ => false, fun _ => false, fun _ => "EACCES"⟩ "sid"
      (⟨"amazon", "p", "o", "a@b.c"⟩ : ScrapingRequest) (by decide) rfl).1⟩

theorem char_toNat_ofNat {n : Nat} (h : n.isValidChar) : (Char.ofNat n).toNat = n := by
  rw [Char.ofNat, dif_pos h]
  rfl

theorem char_toLower_idem (c : Char) : c.toLower.toLower = c.toLower := by
  unfold Char.toLower
  by_cases h : c.toNat ≥ 65 ∧ c.toNat ≤ 90
  · rw [if_pos h]
    have hv : (c.toNat + 32).isValidChar := by
      refine Or.inl ?_
      omega
    rw [char_toNat_ofNat hv, if_neg (by omega)]
  · rw [if_neg h, if_neg h]

theorem map_toLower_idem : ∀ (l : List Char),
    (l.map Char.toLower).map Char.toLower = l.map Char.toLower := by
  intro l
  induction l with
  | nil => rfl
  | cons c rest ih => simp [char_toLower_idem, ih]

theorem lowerStr_idem (s : String) : lowerStr (lowerStr s) = lowerStr s := by
  unfold lowerStr
  exact congrArg String.mk (map_toLower_idem s.data)

theorem strFalsy_lowerStr (s : String) : strFalsy (lowerStr s) = strFalsy s := by
  unfold strFalsy lowerStr
  cases s with
  | mk l => cases l <;> simp

theorem siteSupported_lowerStr (s : String) :
    siteSupported (lowerStr s) = siteSupported s := by
  unfold siteSupported
  rw [lowerStr_idem]

/-- The task name carried by one stage statement (script name for an
invocation, message for a bare announcement). -/
def actionName : StageAction → String
  | StageAction.announce m => m
  | StageAction.runScript s _ => s

/-- The stage/task-name sequence of a pipeline: per stage, its index
and the names of its statements (ignoring invocation arguments). -/
def planSkeleton (plans : List StagePlan) : List (Nat × List String) :=
  plans.map fun sp => (sp.index, sp.actions.map actionName)

/-- Claim C10 (amended): replacing the site parameter by its lowercase
form never changes the accept/reject decision of the start endpoint or
the stage/task-name sequence of the pipeline, and on the blinkit branch
it does not change the stage list at all (arguments included); but on
the amazon branch the full invocation argument lists may differ,
because the raw site string is forwarded verbatim to
`product_analyzer.py`. -/
theorem c10_case_invariance (fs : FsModel) (sid : String) (b : ScrapingRequest) :
    ((POSTscrape fs sid (lowerBody b)).response = (POSTscrape fs sid b).response) ∧
    (planSkeleton (stagePlans (lowerBody b)) = planSkeleton (stagePlans b)) ∧
    (lowerStr b.scrapeSite = "blinkit" → stagePlans (lowerBody b) = stagePlans b) := by
  have hF : fieldsPresent (lowerBody b) = fieldsPresent b := by
    unfold fieldsPresent lowerBody
    simp only
    rw [strFalsy_lowerStr]
  have hS : siteSupported (lowerBody b).scrapeSite = siteSupported b.scrapeSite := by
    unfold lowerBody
    simp only
    exact siteSupported_lowerStr b.scrapeSite
  refine ⟨?_, ?_, ?_⟩
  · unfold POSTscrape
    cases hf : fieldsPresent b <;>
      cases he : emailRegexTest b.recipientEmail <;>
        cases hs : siteSupported b.scrapeSite <;>
          cases hex : fs.existsDir (fs.resolveP b.outputFolder) <;>
            cases hmk : fs.mkdirOk (fs.resolveP b.outputFolder) <;>
              simp [lowerBody, hF, hS, hf, he, hs, hex, hmk] at hF hS ⊢ <;>
                simp [lowerBody, hF, hS, hf, he, hs, hex, hmk]
  · by_cases hb : lowerStr b.scrapeSite = "blinkit"
    · unfold stagePlans lowerBody
      simp only [lowerStr_idem, hb]
      simp [show lowerStr "blinkit" = "blinkit" from by decide]
    · unfold planSkeleton stagePlans lowerBody
      simp only [lowerStr_idem, hb, if_neg hb, if_false]
      simp [actionName]
  · intro hb
    unfold stagePlans lowerBody
    simp only [lowerStr_idem, hb]
    simp [show lowerStr "blinkit" = "blinkit" from by decide]

/-- Claim C10, original form, fails on the code: for site "AMAZON" the
stage/task sequence is not invariant under lowercasing the site,
because stage 1 passes the raw site string as the first argument of
`product_analyzer.py` (["AMAZON", ...] versus ["amazon", ...]), even
though the request is accepted either way and the same scripts run. -/
theorem c10_counterexample :
    (stagePlans (⟨"AMAZON", "p", "o", "a@b.c"⟩ : ScrapingRequest) ≠
      stagePlans (lowerBody (⟨"AMAZON", "p", "o", "a@b.c"⟩ : ScrapingRequest))) ∧
    (structuralOk (⟨"AMAZON", "p", "o", "a@b.c"⟩ : ScrapingRequest) = true) ∧
    (structuralOk (lowerBody (⟨"AMAZON", "p", "o", "a@b.c"⟩ : ScrapingRequest)) = true) := by
  refine ⟨by decide, by decide, by decide⟩

/-- Witness for C10 (amended) at a concrete input: mixed-case
"Blinkit" takes the blinkit branch with an unchanged stage list. -/
theorem c10_case_invariance_witness :
    (lowerStr (⟨"Blinkit", "p", "o", "a@b.c"⟩ : ScrapingRequest).scrapeSite = "blinkit") ∧
    stagePlans (lowerBody (⟨"Blinkit", "p", "o", "a@b.c"⟩ : ScrapingRequest)) =
      stagePlans (⟨"Blinkit", "p", "o", "a@b.c"⟩ : ScrapingRequest) :=
  ⟨by decide,
   (c10_case_invariance ⟨fun s => s, fun _ => true, fun _ => true, fun _ => ""⟩ "sid"
      (⟨"Blinkit", "p", "o", "a@b.c"⟩ : ScrapingRequest)).2.2 (by decide)⟩


theorem errorMsg_ne_blinkitAnnounce (e : String) : "Error: " ++ e ≠ blinkitAnnounce := by
  intro h
  have h' : "Error: " ++ e = blinkitAnnounce ++ "" := by
    rw [String.append_empty]
    exact h
  exact string_append_ne_of_head (p := "Error: ") (q := blinkitAnnounce) e ""
    (c := 'E') (d := 'B') rfl rfl (by decide) h'

theorem sessionEvents_total (p : ScrapingRequest) (env : Env) :
    ∀ e ∈ sessionEvents p env, e.total = totalSteps := by
  obtain ⟨st, r, hx, hmono, hcount, htot, hmatch⟩ := runWorkflow_spec p env
  cases r with
  | ok v =>
      simp only at hmatch
      intro e he
      simp only [sessionEvents, hmatch, List.append_nil, updateProgress,
        List.mem_append, List.mem_cons] at he
      rcases he with rfl | he' | rfl | h0
      · rfl
      · exact htot e he'
      · rfl
      · simp at h0
  | error er =>
      simp only at hmatch
      intro e he
      simp only [sessionEvents, hmatch, updateProgress, List.mem_append,
        List.mem_cons] at he
      rcases he with (rfl | he' | rfl | h0) | (rfl | h0)
      · rfl
      · exact htot e he'
      · rfl
      · simp at h0
      · rfl
      · simp at h0

/-- The blinkit stage-1 invocation. -/
def blinkitInvocation (p : ScrapingRequest) : Invocation :=
  { step := 1, script := "blinkit.py",
    args := ["--brand", p.productName, "--out-dir", p.outputFolder, "--images"] }

/-- The orchestrator state right after the fused stages 1 and 2 of the
blinkit branch (stage 1 succeeded streaming `chunks`). -/
def blinkitPrefixState (p : ScrapingRequest) (chunks : List String) : WfState :=
  { currentStep := 2,
    events :=
      (⟨1, totalSteps, "Starting product analysis and scraping...",
        Status.running, none⟩ : ProgressEvent) ::
      streamEvents "blinkit.py" 1 chunks ++
      [(⟨2, totalSteps, blinkitAnnounce, Status.running, none⟩ : ProgressEvent)],
    invocations := [blinkitInvocation p],
    invIdx := 1 }

/-- The branch-independent tail of the pipeline (stages 3 to 6). -/
def tailPlans (p : ScrapingRequest) : List StagePlan :=
  [ { index := 3,
      actions := [StageAction.announce "Extracting text from images using AI...",
        StageAction.runScript "text_extractor.py" [p.outputFolder]] },
    { index := 4,
      actions := [StageAction.announce "Detecting QR codes and barcodes...",
        StageAction.runScript "qr_orchestrator.py" [p.outputFolder]] },
    { index := 5,
      actions := [StageAction.announce "Merging data and checking credentials...",
        StageAction.runScript "credential_check.py" [p.outputFolder]] },
    { index := 6,
      actions := [StageAction.announce "Sending email report...",
        StageAction.runScript "exception_reporter.py" [p.outputFolder, p.recipientEmail]] } ]

theorem blinkit_prefix_exec (p : ScrapingRequest) (env : Env)
    (chunks : List String) (stderr : String)
    (h1 : lowerStr p.scrapeSite = "blinkit")
    (h2 : env 0 = ProcBehavior.exited 0 chunks stderr) :
    execStages env initState (stagePlans p) =
      execStages env (blinkitPrefixState p chunks) (tailPlans p) := by
  unfold stagePlans blinkitPrefixState blinkitInvocation tailPlans
  simp only [h1, if_pos rfl]
  simp only [execStages, execActions, invokeScript, updateProgress, initState, h2,
    runPythonScript, Except.map]
  simp

/-- Claim C8: on the fused blinkit branch (site lowercases to
"blinkit"), when the single stage-1 invocation succeeds, conceptual
stages 1 and 2 are covered by exactly one external invocation — the
invocations made at steps 1 and 2 are exactly the one `blinkit.py`
call, and `image_scraper.py` is never invoked — the orchestrator emits
exactly one running event carrying the "steps 1 & 2" annotation, and
every event the subscriber observes still reports the fixed declared
total of 6 steps.  The remaining stages 3 to 6 may succeed or fail
arbitrarily. -/
theorem c8_fused_branch (p : ScrapingRequest) (env : Env)
    (chunks : List String) (stderr : String)
    (h1 : lowerStr p.scrapeSite = "blinkit")
    (h2 : env 0 = ProcBehavior.exited 0 chunks stderr) :
    ((runWorkflow p env).1.invocations.filter (fun i => decide (i.step ≤ 2)) =
      [blinkitInvocation p]) ∧
    ((runWorkflow p env).1.events.countP
      (fun e => e.message == blinkitAnnounce) = 1) ∧
    (∀ i ∈ (runWorkflow p env).1.invocations, i.script ≠ "image_scraper.py") ∧
    (∀ e ∈ sessionEvents p env, e.total = totalSteps) := by
  have hpre := blinkit_prefix_exec p env chunks stderr h1 h2
  obtain ⟨evs, invs, hev, hinv, hevp, hinvp⟩ :=
    execStages_spec env (tailPlans p) (blinkitPrefixState p chunks)
  have hstep3 : ∀ i ∈ invs, 3 ≤ i.step ∧ i.script ≠ "image_scraper.py" := by
    intro i hi
    obtain ⟨sp, hsp, hidx, hact⟩ := hinvp i hi
    unfold tailPlans at hsp
    simp only [List.mem_cons, List.not_mem_nil, or_false] at hsp
    rcases hsp with rfl | rfl | rfl | rfl
    all_goals (
      simp at hact
      exact ⟨by simp [hidx], by rw [hact.1]; decide⟩)
  have hevmsg : ∀ e ∈ evs, (e.message == blinkitAnnounce) = false := by
    intro e he
    obtain ⟨hst, htotE, sp, hsp, hidx, hmsg⟩ := hevp e he
    unfold tailPlans at hsp
    simp only [List.mem_cons, List.not_mem_nil, or_false] at hsp
    rcases hsp with rfl | rfl | rfl | rfl
    all_goals (
      rcases hmsg with hm | ⟨s, args, hmem, hms⟩
      · simp at hm
        rw [hm]
        decide
      · simp at hmem
        rw [hms, hmem.1]
        decide)
  have hpreInv : (blinkitPrefixState p chunks).invocations = [blinkitInvocation p] := rfl
  have hfilterInvs : invs.filter (fun i => decide (i.step ≤ 2)) = [] := by
    rw [List.filter_eq_nil_iff]
    intro i hi
    have h3 := (hstep3 i hi).1
    simp only [decide_eq_true_eq]
    omega
  have hcountPre : (blinkitPrefixState p chunks).events.countP
      (fun e => e.message == blinkitAnnounce) = 1 := by
    unfold blinkitPrefixState
    simp only [List.countP_append, List.countP_cons]
    have hzero : (streamEvents "blinkit.py" 1 chunks).countP
        (fun e => e.message == blinkitAnnounce) = 0 := by
      rw [List.countP_eq_zero]
      intro e he
      unfold streamEvents at he
      obtain ⟨out, _, rfl⟩ := List.mem_map.mp he
      exact (by decide :
        ¬ (("Running " ++ "blinkit.py" ++ "...") == blinkitAnnounce) = true)
    simp [hzero]
    decide
  have hcountEvs : evs.countP (fun e => e.message == blinkitAnnounce) = 0 := by
    rw [List.countP_eq_zero]
    intro e he
    simp [hevmsg e he]
  cases hx : execStages env (blinkitPrefixState p chunks) (tailPlans p) with
  | mk st r =>
      rw [hx] at hev hinv
      have hwf : runWorkflow p env =
          (match (st, r) with
           | (st, Except.ok _) =>
               (updateProgress st "All tasks completed successfully!"
                 Status.completed none, Except.ok ())
           | (st, Except.error e) =>
               (updateProgress st ("Error: " ++ e) Status.error none,
                Except.error e)) := by
        unfold runWorkflow
        rw [hpre, hx]
      have hinvS : st.invocations = (blinkitPrefixState p chunks).invocations ++ invs :=
        hinv
      have hevS : st.events = (blinkitPrefixState p chunks).events ++ evs := hev
      have hFinv : ∀ msg status, (updateProgress st msg status none).invocations =
          [blinkitInvocation p] ++ invs := by
        intro msg status
        simp [updateProgress, hinvS, hpreInv]
      have hFev : ∀ msg status, (updateProgress st msg status none).events =
          ((blinkitPrefixState p chunks).events ++ evs) ++
            [(⟨st.currentStep, totalSteps, msg, status, none⟩ : ProgressEvent)] := by
        intro msg status
        simp [updateProgress, hevS, List.append_assoc]
      have hfilter : ∀ msg status,
          ((updateProgress st msg status none).invocations.filter
            (fun i => decide (i.step ≤ 2))) = [blinkitInvocation p] := by
        intro msg status
        rw [hFinv, List.filter_append, hfilterInvs]
        simp [blinkitInvocation]
      have hscripts : ∀ msg status,
          ∀ i ∈ (updateProgress st msg status none).invocations,
            i.script ≠ "image_scraper.py" := by
        intro msg status i hi
        rw [hFinv] at hi
        rcases List.mem_append.mp hi with h' | h'
        · rcases List.mem_singleton.mp h' with rfl
          exact (by decide : ¬ ("blinkit.py" : String) = "image_scraper.py")
        · exact (hstep3 i h').2
      cases r with
      | ok v =>
          simp only at hwf
          refine ⟨?_, ?_, ?_, sessionEvents_total p env⟩
          · rw [hwf]
            exact hfilter _ _
          · rw [hwf]
            rw [show (updateProgress st "All tasks completed successfully!"
                Status.completed none, Except.ok ()).1 =
              updateProgress st "All tasks completed successfully!"
                Status.completed none from rfl]
            rw [hFev]
            simp only [List.countP_append, hcountPre, hcountEvs, List.countP_cons]
            have hok : (("All tasks completed successfully!" : String) ==
                blinkitAnnounce) = false := by decide
            simp [hok]
          · rw [hwf]
            exact hscripts _ _
      | error er =>
          simp only at hwf
          refine ⟨?_, ?_, ?_, sessionEvents_total p env⟩
          · rw [hwf]
            exact hfilter _ _
          · rw [hwf]
            rw [show (updateProgress st ("Error: " ++ er) Status.error none,
                Except.error er).1 =
              updateProgress st ("Error: " ++ er) Status.error none from rfl]
            rw [hFev]
            simp only [List.countP_append, hcountPre, hcountEvs, List.countP_cons]
            have hne : ((("Error: " ++ er) == blinkitAnnounce)) = false :=
              beq_eq_false_iff_ne.mpr (errorMsg_ne_blinkitAnnounce er)
            simp [hne]
          · rw [hwf]
            exact hscripts _ _

/-- Witness for C8 at a concrete input: a mixed-case "Blinkit" request
whose scripts all exit 0, the first streaming one chunk. -/
theorem c8_fused_branch_witness :
    ((lowerStr (⟨"Blinkit", "p", "o", "a@b.c"⟩ : ScrapingRequest).scrapeSite =
        "blinkit") ∧
     ((fun _ => ProcBehavior.exited 0 ["line"] "") : Env) 0 =
        ProcBehavior.exited 0 ["line"] "") ∧
    ((runWorkflow (⟨"Blinkit", "p", "o", "a@b.c"⟩ : ScrapingRequest)
        (fun _ => ProcBehavior.exited 0 ["line"] "")).1.invocations.filter
          (fun i => decide (i.step ≤ 2)) =
      [blinkitInvocation (⟨"Blinkit", "p", "o", "a@b.c"⟩ : ScrapingRequest)]) ∧
    ((runWorkflow (⟨"Blinkit", "p", "o", "a@b.c"⟩ : ScrapingRequest)
        (fun _ => ProcBehavior.exited 0 ["line"] "")).1.events.countP
          (fun e => e.message == blinkitAnnounce) = 1) :=
  ⟨⟨by decide, rfl⟩,
   (c8_fused_branch (⟨"Blinkit", "p", "o", "a@b.c"⟩ : ScrapingRequest)
      (fun _ => ProcBehavior.exited 0 ["line"] "") ["line"] "" (by decide) rfl).1,
   (c8_fused_branch (⟨"Blinkit", "p", "o", "a@b.c"⟩ : ScrapingRequest)
      (fun _ => ProcBehavior.exited 0 ["line"] "") ["line"] "" (by decide) rfl).2.1⟩
